import Mathlib

/-!
A shallow embedding of the chat backend in `src/main.go`.  The repository has
two near-duplicate variants of the program: an in-memory one (global slices
and a `map[string]bool`, guarded by mutexes) and a SQL-backed one.  The
in-memory variant is embedded in full below; of the SQL variant we embed the
`postMessage` handler, whose validation differs from the in-memory one.
Handlers run under a mutex, so each is modelled as a pure function from the
server state and the request to the next state and the HTTP-level outcome.
-/

namespace ChatApp

/-- Go struct `message` (src/main.go:15-21).  Field names follow the source. -/
structure message where
  Id : Nat
  LobbyId : String
  SenderName : String
  MessageString : String
  Timestamp : Int
  deriving Repr, DecidableEq

/-- Go struct `sender` (src/main.go:23-27). -/
structure sender where
  Username : String
  LobbyId : String
  IsTyping : Bool
  deriving Repr, DecidableEq

/-- Go struct `lobbyData` (src/main.go:29-33): the view returned to clients. -/
structure lobbyData where
  Messages : List message
  Senders : List sender
  Id : String
  deriving Repr, DecidableEq

/-- The in-memory variant's shared state: the globals `messages`, `senders`,
`lobbies` and `nextMessageId` (src/main.go:48-52).  The Go `map[string]bool`
holding the lobbies is modelled by the list of its keys. -/
structure ServerState where
  messages : List message
  senders : List sender
  lobbies : List String
  nextMessageId : Nat
  deriving Repr, DecidableEq

/-- The state at process start: empty collections, `nextMessageId = 1`
(src/main.go:48-52). -/
def initialState : ServerState :=
  { messages := [], senders := [], lobbies := [], nextMessageId := 1 }

/-- `doesLobbyExist` (src/main.go:56-59): key lookup in the `lobbies` map. -/
def doesLobbyExist (st : ServerState) (id : String) : Bool :=
  st.lobbies.contains id

/-- `constructLobbyData` (src/main.go:61-82): `none` when the lobby does not
exist (`errors.New("lobby not found")`); otherwise the source starts from the
empty slices `[]message{}` / `[]sender{}` and appends, in stored order, the
messages and senders whose `LobbyId` equals the requested id. -/
def constructLobbyData (st : ServerState) (id : String) : Option lobbyData :=
  if doesLobbyExist st id then
    some { Messages := st.messages.filter (fun m => m.LobbyId == id),
           Senders := st.senders.filter (fun s => s.LobbyId == id),
           Id := id }
  else
    none

/-- Outcome of the in-memory `postMessage` handler (src/main.go:97-126).
`unknownLobby` is the `"Message did not belong to a lobby!"` rejection;
`viewFailed` the (unreachable) error branch after the append; the in-memory
handler has no body-length validation at all. -/
inductive postResult where
  | unknownLobby
  | viewFailed
  | created (view : lobbyData)
  deriving Repr, DecidableEq

/-- `postMessage` (src/main.go:97-126).  The JSON-bound request is `msg`; the
handler checks the lobby, then under the mutex overwrites `msg.Id` with
`nextMessageId` and `msg.Timestamp` with the current time (passed in as
`now`), increments the counter, appends the message, and returns a fresh
view of the lobby. -/
def postMessage (st : ServerState) (msg : message) (now : Int) :
    ServerState × postResult :=
  if !doesLobbyExist st msg.LobbyId then
    (st, .unknownLobby)
  else
    let posted := { msg with Id := st.nextMessageId, Timestamp := now }
    let st1 : ServerState :=
      { st with nextMessageId := st.nextMessageId + 1,
                messages := st.messages ++ [posted] }
    match constructLobbyData st1 msg.LobbyId with
    | some view => (st1, .created view)
    | none => (st1, .viewFailed)

/-- The retry loop of `createLobby` (src/main.go:130-136), the stream of
`randSeq` outputs abstracted as `gen` (`gen k` is the result of the k-th call
of `randSeq`, the initial candidate being `gen 0`) and the store lookup
abstracted as `exist`:
`for doesLobbyExist(id) && attempts > 0 { id = randSeq(LOBBY_ID_LENGTH); attempts -= 1 }`.
Arguments: current `id`, remaining `attempts`, index `k` of the next
generator call.  Returns the loop's final `id` and `attempts`. -/
def createLobbyLoop (exist : String → Bool) (gen : Nat → String) :
    String → Nat → Nat → String × Nat
  | id, 0, _ => (id, 0)
  | id, a + 1, k =>
    if exist id then createLobbyLoop exist gen (gen k) a (k + 1) else (id, a + 1)

/-- `createLobby` (src/main.go:128-150): initial candidate `gen 0`,
`attempts := 10`, run the retry loop; when the loop ends with `attempts == 0`
answer the `"Failed to generate unique id string!"` failure (modelled as
`none`), otherwise commit the loop's final candidate. -/
def createLobbyGen (exist : String → Bool) (gen : Nat → String) : Option String :=
  if (createLobbyLoop exist gen (gen 0) 10 1).2 = 0 then none
  else some (createLobbyLoop exist gen (gen 0) 10 1).1

/-- The store-level effect of a successful `createLobby`: `lobbies[id] = true`
(src/main.go:145), i.e. key insertion into the map. -/
def insertLobby (st : ServerState) (id : String) : ServerState :=
  if st.lobbies.contains id then st else { st with lobbies := id :: st.lobbies }

/-- The match test of `enterLobby`'s scan (src/main.go:172): same lobby and
same username. -/
def senderMatches (req s : sender) : Bool :=
  s.LobbyId == req.LobbyId && s.Username == req.Username

/-- Outcome of the in-memory `enterLobby` handler (src/main.go:152-191). -/
inductive enterResult where
  | unknownLobby
  | viewFailed
  | ok (view : lobbyData)
  deriving Repr, DecidableEq

/-- `enterLobby` (src/main.go:152-191): reject an unknown lobby; scan all of
`senders`, setting `add = false` when one matches the request's
`(LobbyId, Username)`; when `add` is still true append the request with
`IsTyping` forced to `false`; finally return a fresh view. -/
def enterLobby (st : ServerState) (req : sender) : ServerState × enterResult :=
  if !doesLobbyExist st req.LobbyId then
    (st, .unknownLobby)
  else
    let add := !(st.senders.any (senderMatches req))
    let st1 : ServerState :=
      if add then { st with senders := st.senders ++ [{ req with IsTyping := false }] }
      else st
    match constructLobbyData st1 req.LobbyId with
    | some view => (st1, .ok view)
    | none => (st1, .viewFailed)

/-- The scan inside `updateTyping` (src/main.go:214-222), rendered step by
step:

`for i := 0; i < len(senders); { if match { senders[i].IsTyping = ...; found = true; break } }`

The source's `for` header has **no increment statement**, so an iteration
whose element does not match leaves `i` unchanged.  `fuel` bounds the number
of loop iterations examined; `none` means the loop has not exited within
`fuel` iterations (for this loop, once an iteration neither breaks nor exits,
no later one ever will).  On exit, returns the senders slice and `found`. -/
def updateTypingScan (req : sender) (senders : List sender) (i : Nat) :
    Nat → Option (List sender × Bool)
  | 0 => none
  | fuel + 1 =>
    if h : i < senders.length then
      let s := senders.get ⟨i, h⟩
      if s.Username == req.Username && s.LobbyId == req.LobbyId then
        some (senders.set i { s with IsTyping := req.IsTyping }, true)
      else
        updateTypingScan req senders i fuel
    else
      some (senders, false)

/-- `updateTyping` (src/main.go:204-231) at the store level: run the scan from
`i = 0`; on exit, `found = true` is the HTTP 200 acknowledgement and
`found = false` the `"Could not find sender to update!"` (SenderNotFound)
response; `none` when the scan has not finished within `fuel` iterations. -/
def updateTyping (st : ServerState) (req : sender) (fuel : Nat) :
    Option (ServerState × Bool) :=
  match updateTypingScan req st.senders 0 fuel with
  | none => none
  | some (senders1, found) => some ({ st with senders := senders1 }, found)

/-- A call of one of the in-memory variant's mutating handlers, for reasoning
about operation sequences.  `createLobby id` stands for a creation request
whose generator produced `id`; `setTyping` carries the fuel given to the
scan. -/
inductive Op where
  | createLobby (id : String)
  | post (msg : message) (now : Int)
  | enter (req : sender)
  | setTyping (req : sender) (fuel : Nat)

/-- The state after one handler call.  A `setTyping` whose scan has not exited
within its fuel has performed no mutation (the source's loop body writes only
when it matches, and then breaks), so the state is unchanged. -/
def applyOp (st : ServerState) : Op → ServerState
  | .createLobby id => insertLobby st id
  | .post msg now => (postMessage st msg now).1
  | .enter req => (enterLobby st req).1
  | .setTyping req fuel =>
    match updateTyping st req fuel with
    | some (st1, _) => st1
    | none => st

/-- A sequence of handler calls against the in-memory store. -/
def runOps (st : ServerState) (ops : List Op) : ServerState :=
  ops.foldl applyOp st

/-- `MAX_MSG_LEN` of the SQL variant (src/main.go:261). -/
def MAX_MSG_LEN : Nat := 512

/-- The SQL variant's table state: the `lobbies`, `message` and `sender`
tables, rows in insertion order.  Message ids are assigned by the database's
auto-increment and play no part in the claims about this variant. -/
structure SqlState where
  lobbies : List String
  messages : List message
  senders : List sender
  deriving Repr, DecidableEq

/-- Outcome of the SQL variant's `postMessage` handler (src/main.go:449-484).
`bodyTooLong` is the `"Message is too long!"` rejection. -/
inductive sqlPostResult where
  | bodyTooLong
  | unknownLobby
  | ok (view : lobbyData)
  | viewFailed
  deriving Repr, DecidableEq

/-- `doesLobbyExist` of the SQL variant (src/main.go:339-353):
`SELECT COUNT(*) FROM lobbies WHERE id = ?` is nonzero. -/
def sqlDoesLobbyExist (st : SqlState) (id : String) : Bool :=
  st.lobbies.contains id

/-- `constructLobbyData` of the SQL variant (src/main.go:407-424): existence
check, then `SELECT * FROM message WHERE lobbyId = ?` and likewise for
senders (both initialised to empty slices). -/
def sqlConstructLobbyData (st : SqlState) (id : String) : Option lobbyData :=
  if sqlDoesLobbyExist st id then
    some { Messages := st.messages.filter (fun m => m.LobbyId == id),
           Senders := st.senders.filter (fun s => s.LobbyId == id),
           Id := id }
  else
    none

/-- The SQL variant's `postMessage` (src/main.go:449-484): reject a body of
more than `MAX_MSG_LEN` bytes (Go's `len` on a string counts UTF-8 bytes),
then an unknown lobby; otherwise insert the row with the server timestamp and
return a fresh view. -/
def sqlPostMessage (st : SqlState) (msg : message) (now : Int) :
    SqlState × sqlPostResult :=
  if MAX_MSG_LEN < msg.MessageString.utf8ByteSize then
    (st, .bodyTooLong)
  else if !sqlDoesLobbyExist st msg.LobbyId then
    (st, .unknownLobby)
  else
    let st1 : SqlState := { st with messages := st.messages ++ [{ msg with Timestamp := now }] }
    match sqlConstructLobbyData st1 msg.LobbyId with
    | some view => (st1, .ok view)
    | none => (st1, .viewFailed)

/-- A sender named "bob" in lobby "abcxyz", not typing. -/
def bob : sender := { Username := "bob", LobbyId := "abcxyz", IsTyping := false }

/-- A store holding the single lobby "abcxyz" and no rows. -/
def stLobbyOnly : ServerState := { initialState with lobbies := ["abcxyz"] }

/-- A store holding the lobby "abcxyz" and the single sender `bob`. -/
def stBob : ServerState := { stLobbyOnly with senders := [bob] }

/-- A typing update naming `bob` and setting the flag to true. -/
def bobTypingReq : sender := { Username := "bob", LobbyId := "abcxyz", IsTyping := true }

/-- `stBob` after bob's typing flag has been set to true. -/
def stBobTyping : ServerState := { stLobbyOnly with senders := [bobTypingReq] }

/-- The scan's match test agrees with `senderMatches` (the two source loops
write the conjunction in opposite orders). -/
theorem scanTest_eq_senderMatches (req s : sender) :
    (s.Username == req.Username && s.LobbyId == req.LobbyId) = senderMatches req s := by
  simp [senderMatches, Bool.and_comm]

/-- When the element at the scan's cursor does not match, the scan never
exits: the source loop has no increment, so every later iteration re-examines
the same element. -/
theorem updateTypingScan_stuck (req : sender) (l : List sender) (i : Nat)
    (h : i < l.length)
    (hm : ((l.get ⟨i, h⟩).Username == req.Username &&
      (l.get ⟨i, h⟩).LobbyId == req.LobbyId) = false) :
    ∀ fuel, updateTypingScan req l i fuel = none := by
  intro fuel
  induction fuel with
  | zero => rfl
  | succ n ih =>
    unfold updateTypingScan
    rw [dif_pos h, if_neg (by simp only [hm]; simp), ih]

/-- A scan that exits with `found = true` matched at its cursor and changed
exactly that element's `IsTyping`. -/
theorem updateTypingScan_found (req : sender) :
    ∀ (fuel : Nat) (l : List sender) (i : Nat) (l1 : List sender),
      updateTypingScan req l i fuel = some (l1, true) →
      ∃ hi : i < l.length,
        ((l.get ⟨i, hi⟩).Username == req.Username &&
          (l.get ⟨i, hi⟩).LobbyId == req.LobbyId) = true ∧
        l1 = l.set i { l.get ⟨i, hi⟩ with IsTyping := req.IsTyping } := by
  intro fuel
  induction fuel with
  | zero => intro l i l1 h; exact absurd h (by simp [updateTypingScan])
  | succ n ih =>
    intro l i l1 h
    unfold updateTypingScan at h
    by_cases hi : i < l.length
    · rw [dif_pos hi] at h
      by_cases hm : ((l.get ⟨i, hi⟩).Username == req.Username &&
          (l.get ⟨i, hi⟩).LobbyId == req.LobbyId) = true
      · rw [if_pos hm] at h
        refine ⟨hi, hm, ?_⟩
        have := h
        simp only [Option.some.injEq, Prod.mk.injEq] at this
        exact this.1.symm
      · rw [if_neg hm] at h
        exact ih l i l1 h
    · rw [dif_neg hi] at h
      simp only [Option.some.injEq, Prod.mk.injEq] at h
      exact absurd h.2 (by simp)

/-- C1: the claim says every public operation terminates, the typing-update
sender scan in particular completing in a bounded number of steps.  The
source loop `for i := 0; i < len(senders);` (src/main.go:216) never
increments `i`: with the one sender "bob" in the list and a request naming
"ghost", the scan makes no progress, and no iteration bound `fuel` suffices
for it to exit. -/
theorem updateTyping_scan_never_exits :
    ∀ fuel : Nat,
      updateTypingScan { Username := "ghost", LobbyId := "abcxyz", IsTyping := true }
        [bob] 0 fuel = none := by
  intro fuel
  exact updateTypingScan_stuck _ _ _ (by decide) (by decide) fuel

/-- C3: the claim says SetTyping on an absent sender returns SenderNotFound
and leaves the senders unchanged.  On the store holding lobby "abcxyz" with
the single sender `bob`, the request for the absent sender "ghost" makes the
handler's scan spin forever (src/main.go:216 has no increment), so the
handler never produces the SenderNotFound response: for every iteration
bound `fuel` the operation has not exited. -/
theorem setTyping_absent_sender_diverges :
    ∀ fuel : Nat,
      updateTyping stBob { Username := "ghost", LobbyId := "abcxyz", IsTyping := true }
        fuel = none := by
  intro fuel
  unfold updateTyping
  rw [updateTypingScan_stuck _ _ _ (by decide) (by decide) fuel]

/-- C10: a successful SetTyping (the handler answers 200, `found = true`)
modifies only the `IsTyping` field of the sender its scan matched: the
lobbies, the messages, the message-id counter, and the matched sender's name
and lobby id are unchanged, and every sender at another position is
unchanged. -/
theorem setTyping_success_frame (st : ServerState) (req : sender) (fuel : Nat)
    (st1 : ServerState) (h : updateTyping st req fuel = some (st1, true)) :
    st1.lobbies = st.lobbies ∧ st1.messages = st.messages ∧
    st1.nextMessageId = st.nextMessageId ∧
    ∃ i, ∃ hi : i < st.senders.length,
      ((st.senders.get ⟨i, hi⟩).Username == req.Username &&
        (st.senders.get ⟨i, hi⟩).LobbyId == req.LobbyId) = true ∧
      st1.senders = st.senders.set i
        { st.senders.get ⟨i, hi⟩ with IsTyping := req.IsTyping } ∧
      (st.senders.get ⟨i, hi⟩).Username =
        (st1.senders.get? i).elim "" sender.Username ∧
      (st.senders.get ⟨i, hi⟩).LobbyId =
        (st1.senders.get? i).elim "" sender.LobbyId ∧
      ∀ j, j ≠ i → st1.senders.get? j = st.senders.get? j := by
  unfold updateTyping at h
  cases hscan : updateTypingScan req st.senders 0 fuel with
  | none => rw [hscan] at h; exact absurd h (by simp)
  | some p =>
    rw [hscan] at h
    obtain ⟨senders1, found⟩ := p
    simp only [Option.some.injEq] at h
    have hst1 : st1 = { st with senders := senders1 } := by
      have := congrArg Prod.fst h
      simpa using this.symm
    have hfound : found = true := by
      have := congrArg Prod.snd h
      simpa using this.symm
    subst hfound
    obtain ⟨hi, hm, hset⟩ := updateTypingScan_found req fuel st.senders 0 senders1 hscan
    subst hst1
    refine ⟨rfl, rfl, rfl, 0, hi, hm, hset, ?_, ?_, ?_⟩
    · rw [hset]
      rw [List.get?_set_eq_of_lt _ (by simpa using hi)]
      rfl
    · rw [hset]
      rw [List.get?_set_eq_of_lt _ (by simpa using hi)]
      rfl
    · intro j hj
      rw [hset]
      exact List.get?_set_ne _ _ (fun e => hj e.symm)

/-- C10 witness: on the store with the single sender `bob`, setting bob's
typing flag to true succeeds and satisfies the frame property at a concrete
input. -/
theorem setTyping_success_frame_witness :
    stBobTyping.lobbies = stBob.lobbies ∧ stBobTyping.messages = stBob.messages ∧
    stBobTyping.nextMessageId = stBob.nextMessageId ∧
    ∃ i, ∃ hi : i < stBob.senders.length,
      ((stBob.senders.get ⟨i, hi⟩).Username == bobTypingReq.Username &&
        (stBob.senders.get ⟨i, hi⟩).LobbyId == bobTypingReq.LobbyId) = true ∧
      stBobTyping.senders = stBob.senders.set i
        { stBob.senders.get ⟨i, hi⟩ with IsTyping := bobTypingReq.IsTyping } ∧
      (stBob.senders.get ⟨i, hi⟩).Username =
        (stBobTyping.senders.get? i).elim "" sender.Username ∧
      (stBob.senders.get ⟨i, hi⟩).LobbyId =
        (stBobTyping.senders.get? i).elim "" sender.LobbyId ∧
      ∀ j, j ≠ i → stBobTyping.senders.get? j = stBob.senders.get? j :=
  setTyping_success_frame stBob bobTypingReq 3 stBobTyping (by decide)

/-- The retry loop ends with `attempts = 0` exactly when its starting
candidate and the next `a` generated candidates all collide. -/
theorem createLobbyLoop_exhausted (exist : String → Bool) (gen : Nat → String) :
    ∀ (a k : Nat) (id : String),
      (createLobbyLoop exist gen id (a + 1) k).2 = 0 ↔
        (exist id = true ∧ ∀ j, j < a → exist (gen (k + j)) = true) := by
  intro a
  induction a with
  | zero =>
    intro k id
    by_cases h : exist id = true
    · simp [createLobbyLoop, h]
    · simp [createLobbyLoop, h]
  | succ a ih =>
    intro k id
    by_cases h : exist id = true
    · rw [show createLobbyLoop exist gen id (a + 1 + 1) k =
          createLobbyLoop exist gen (gen k) (a + 1) (k + 1) from by
        simp [createLobbyLoop, h]]
      rw [ih (k + 1) (gen k)]
      constructor
      · rintro ⟨hgk, hrest⟩
        refine ⟨h, fun j hj => ?_⟩
        match j with
        | 0 => simpa using hgk
        | j + 1 =>
          have := hrest j (by omega)
          rw [show k + 1 + j = k + (j + 1) from by omega] at this
          exact this
      · rintro ⟨_, hall⟩
        refine ⟨by simpa using hall 0 (by omega), fun j hj => ?_⟩
        have := hall (j + 1) (by omega)
        rw [show k + (j + 1) = k + 1 + j from by omega] at this
        exact this
    · rw [show createLobbyLoop exist gen id (a + 1 + 1) k = (id, a + 1 + 1) from by
        simp [createLobbyLoop, h]]
      simp [h]

/-- When the retry loop ends with `attempts ≠ 0`, its final candidate is
collision-free and is either the starting candidate or the `j`-th generated
one for some `j < attempts`, every earlier candidate having collided. -/
theorem createLobbyLoop_success (exist : String → Bool) (gen : Nat → String) :
    ∀ (a k : Nat) (id : String),
      (createLobbyLoop exist gen id a k).2 ≠ 0 →
      exist (createLobbyLoop exist gen id a k).1 = false ∧
        ((createLobbyLoop exist gen id a k).1 = id ∨
          ∃ j, j < a ∧ (createLobbyLoop exist gen id a k).1 = gen (k + j) ∧
            exist id = true ∧ ∀ i, i < j → exist (gen (k + i)) = true) := by
  intro a
  induction a with
  | zero => intro k id h; exact absurd rfl h
  | succ a ih =>
    intro k id h
    by_cases he : exist id = true
    · have heq : createLobbyLoop exist gen id (a + 1) k =
          createLobbyLoop exist gen (gen k) a (k + 1) := by
        simp [createLobbyLoop, he]
      rw [heq] at h ⊢
      obtain ⟨h1, h2⟩ := ih (k + 1) (gen k) h
      refine ⟨h1, Or.inr ?_⟩
      rcases h2 with h2 | ⟨j, hj, hfst, hgk, hpref⟩
      · exact ⟨0, by omega, by simpa using h2, he, fun i hi => absurd hi (Nat.not_lt_zero i)⟩
      · refine ⟨j + 1, by omega, ?_, he, ?_⟩
        · rw [show k + (j + 1) = k + 1 + j from by omega]
          exact hfst
        · intro i hi
          match i with
          | 0 => simpa using hgk
          | i + 1 =>
            have := hpref i (by omega)
            rw [show k + (i + 1) = k + 1 + i from by omega]
            exact this
    · have heq : createLobbyLoop exist gen id (a + 1) k = (id, a + 1) := by
        simp [createLobbyLoop, he]
      rw [heq]
      exact ⟨by simpa using he, Or.inl rfl⟩

/-- C2 amended: `createLobby` reports GenerationExhausted exactly when each
of the **first ten** generated candidates (`gen 0` … `gen 9`) collides with
an existing lobby; the eleventh candidate, generated on the final retry, is
never checked.  When `createLobby` succeeds, the returned id is the first of
the ten checked candidates that does not collide. -/
theorem createLobby_attempt_budget (exist : String → Bool) (gen : Nat → String) :
    (createLobbyGen exist gen = none ↔ ∀ i, i < 10 → exist (gen i) = true) ∧
    (∀ id, createLobbyGen exist gen = some id →
      exist id = false ∧
        ∃ i, i < 10 ∧ id = gen i ∧ ∀ j, j < i → exist (gen j) = true) := by
  have hbase : (createLobbyLoop exist gen (gen 0) 10 1).2 = 0 ↔
      (exist (gen 0) = true ∧ ∀ j, j < 9 → exist (gen (1 + j)) = true) :=
    createLobbyLoop_exhausted exist gen 9 1 (gen 0)
  have hfail : (createLobbyLoop exist gen (gen 0) 10 1).2 = 0 ↔
      ∀ i, i < 10 → exist (gen i) = true := by
    rw [hbase]
    constructor
    · rintro ⟨h0, hr⟩ i hi
      match i with
      | 0 => exact h0
      | i + 1 =>
        have := hr i (by omega)
        rw [show 1 + i = i + 1 from by omega] at this
        exact this
    · intro hall
      refine ⟨hall 0 (by omega), fun j hj => ?_⟩
      have := hall (j + 1) (by omega)
      rw [show 1 + j = j + 1 from by omega]
      exact this
  constructor
  · unfold createLobbyGen
    by_cases hr : (createLobbyLoop exist gen (gen 0) 10 1).2 = 0
    · rw [if_pos hr]
      simpa using hfail.mp hr
    · rw [if_neg hr]
      simp only [reduceCtorEq, false_iff]
      intro hall
      exact hr (hfail.mpr hall)
  · intro id hid
    unfold createLobbyGen at hid
    by_cases hr : (createLobbyLoop exist gen (gen 0) 10 1).2 = 0
    · rw [if_pos hr] at hid
      exact absurd hid (by simp)
    · rw [if_neg hr] at hid
      have hfst : (createLobbyLoop exist gen (gen 0) 10 1).1 = id := by
        simpa using hid
      obtain ⟨hex, hcase⟩ := createLobbyLoop_success exist gen 10 1 (gen 0) hr
      rw [hfst] at hex hcase
      refine ⟨hex, ?_⟩
      rcases hcase with hcase | ⟨j, hj, hfstj, hg0, hpref⟩
      · exact ⟨0, by omega, hcase, fun j hj => absurd hj (Nat.not_lt_zero j)⟩
      · have hprefix : ∀ t, t < j + 1 → exist (gen t) = true := by
          intro t ht
          match t with
          | 0 => exact hg0
          | t + 1 =>
            have := hpref t (by omega)
            rw [show 1 + t = t + 1 from by omega] at this
            exact this
        have hjlt : j + 1 < 10 := by
          by_contra hge
          have hj9 : j = 9 := by omega
          subst hj9
          exact hr (hfail.mpr (fun i hi => hprefix i (by omega)))
        refine ⟨j + 1, hjlt, ?_, hprefix⟩
        rw [show (1 : Nat) + j = j + 1 from by omega] at hfstj
        exact hfstj

/-- A deterministic stand-in for the stream of `randSeq` outputs: eleven
distinct six-letter candidates, then a filler. -/
def gen0 : Nat → String := fun k =>
  ["aaaaaa", "bbbbbb", "cccccc", "dddddd", "eeeeee", "ffffff",
   "gggggg", "hhhhhh", "iiiiii", "jjjjjj", "kkkkkk"].getD k "zzzzzz"

/-- An existing-lobby predicate under which the first ten candidates of
`gen0` collide and the eleventh ("kkkkkk") is free. -/
def exist0 : String → Bool := fun s =>
  ["aaaaaa", "bbbbbb", "cccccc", "dddddd", "eeeeee", "ffffff",
   "gggggg", "hhhhhh", "iiiiii", "jjjjjj"].contains s

/-- C2 counterexample: the candidate `gen0 10` = "kkkkkk" is generated within
the 10-retry budget (on the final retry) and does not collide, yet
`createLobby` still reports GenerationExhausted (`none`): the loop exits on
the attempt counter without checking its last candidate, so the claim's
"whenever some candidate generated within the budget does not collide,
CreateLobby succeeds" fails at this input. -/
theorem createLobby_budget_cex :
    exist0 (gen0 10) = false ∧ createLobbyGen exist0 gen0 = none := by
  exact ⟨rfl, rfl⟩

/-- A message body of 513 bytes (513 ASCII characters). -/
def longBody : String := String.mk (List.replicate 513 'a')

/-- A post request to lobby "abcxyz" whose body is `longBody`. -/
def msgLong : message :=
  { Id := 0, LobbyId := "abcxyz", SenderName := "bob",
    MessageString := longBody, Timestamp := 0 }

set_option maxRecDepth 4000 in
/-- C4 counterexample: the in-memory `postMessage` (src/main.go:97-126)
performs no body-length validation.  On the store holding lobby "abcxyz", a
post whose body is 513 bytes long is accepted: a message is appended and the
message-id counter advances, instead of the claimed BodyTooLong failure
before any mutation. -/
theorem postMessage_no_length_check_cex :
    msgLong.MessageString.utf8ByteSize = 513 ∧
    (postMessage stBob msgLong 5).1.messages.length = 1 ∧
    (postMessage stBob msgLong 5).1.nextMessageId = 2 := by
  refine ⟨?_, ?_, ?_⟩ <;> rfl

/-- C4 amended: the body-length rule holds in the SQL variant only.  There,
`postMessage` rejects a body of more than 512 bytes with BodyTooLong before
any mutation (the store is returned unchanged), and never reports
BodyTooLong for a body of at most 512 bytes; the in-memory variant (the
counterexample's subject) has no body-length validation and no BodyTooLong
outcome at all. -/
theorem postMessage_body_length (st : SqlState) (msg : message) (now : Int) :
    (512 < msg.MessageString.utf8ByteSize →
      sqlPostMessage st msg now = (st, sqlPostResult.bodyTooLong)) ∧
    (msg.MessageString.utf8ByteSize ≤ 512 →
      (sqlPostMessage st msg now).2 ≠ sqlPostResult.bodyTooLong) := by
  constructor
  · intro h
    unfold sqlPostMessage
    rw [if_pos (show MAX_MSG_LEN < msg.MessageString.utf8ByteSize from h)]
  · intro h
    have hnot : ¬ MAX_MSG_LEN < msg.MessageString.utf8ByteSize := by
      simp only [MAX_MSG_LEN]
      omega
    unfold sqlPostMessage
    rw [if_neg hnot]
    cases hl : sqlDoesLobbyExist st msg.LobbyId with
    | false =>
      rw [if_pos (by simp [hl])]
      simp
    | true =>
      rw [if_neg (by simp [hl])]
      cases hc : sqlConstructLobbyData
          { lobbies := st.lobbies,
            messages := st.messages ++ [{ msg with Timestamp := now }],
            senders := st.senders } msg.LobbyId with
      | none => simp [hc]
      | some view => simp [hc]

/-- C8: against a lobby id not present in the lobby collection, `postMessage`
and `enterLobby` answer UnknownLobby and return the store exactly as it was:
no message row, no sender row, no counter movement. -/
theorem unknownLobby_no_mutation (st : ServerState) (msg : message) (now : Int)
    (req : sender) :
    (doesLobbyExist st msg.LobbyId = false →
      postMessage st msg now = (st, postResult.unknownLobby)) ∧
    (doesLobbyExist st req.LobbyId = false →
      enterLobby st req = (st, enterResult.unknownLobby)) := by
  constructor
  · intro h
    unfold postMessage
    rw [if_pos (by simp [h])]
  · intro h
    unfold enterLobby
    rw [if_pos (by simp [h])]

/-- C9: fetching the view of an existing lobby succeeds, the view's id is the
requested id, and its message and sender lists are exactly the stored rows
whose lobby id matches, in stored order (the source builds them from empty
slices, so a lobby with no rows yields empty lists, not null). -/
theorem fetchLobby_exact_view (st : ServerState) (id : String)
    (h : doesLobbyExist st id = true) :
    ∃ view, constructLobbyData st id = some view ∧
      view.Id = id ∧
      view.Messages = st.messages.filter (fun m => m.LobbyId == id) ∧
      view.Senders = st.senders.filter (fun s => s.LobbyId == id) ∧
      ((∀ m ∈ st.messages, m.LobbyId ≠ id) → view.Messages = []) ∧
      ((∀ s ∈ st.senders, s.LobbyId ≠ id) → view.Senders = []) := by
  refine ⟨{ Messages := st.messages.filter (fun m => m.LobbyId == id),
            Senders := st.senders.filter (fun s => s.LobbyId == id),
            Id := id }, ?_, rfl, rfl, rfl, ?_, ?_⟩
  · unfold constructLobbyData
    rw [if_pos h]
  · intro hnone
    apply List.filter_eq_nil.mpr
    intro m hm
    simp [hnone m hm]
  · intro hnone
    apply List.filter_eq_nil.mpr
    intro s hs
    simp [hnone s hs]

/-- C9 witness: on the store holding only the empty lobby "abcxyz", the fetch
succeeds with empty message and sender lists. -/
theorem fetchLobby_exact_view_witness :
    ∃ view, constructLobbyData stLobbyOnly "abcxyz" = some view ∧
      view.Id = "abcxyz" ∧
      view.Messages = stLobbyOnly.messages.filter (fun m => m.LobbyId == "abcxyz") ∧
      view.Senders = stLobbyOnly.senders.filter (fun s => s.LobbyId == "abcxyz") ∧
      ((∀ m ∈ stLobbyOnly.messages, m.LobbyId ≠ "abcxyz") → view.Messages = []) ∧
      ((∀ s ∈ stLobbyOnly.senders, s.LobbyId ≠ "abcxyz") → view.Senders = []) :=
  fetchLobby_exact_view stLobbyOnly "abcxyz" (by decide)

/-- The state `postMessage` leaves behind: unchanged on an unknown lobby,
otherwise the message appended with the counter's id and the counter
advanced. -/
theorem postMessage_fst (st : ServerState) (msg : message) (now : Int) :
    (postMessage st msg now).1 =
      if doesLobbyExist st msg.LobbyId then
        { st with nextMessageId := st.nextMessageId + 1,
                  messages := st.messages ++
                    [{ msg with Id := st.nextMessageId, Timestamp := now }] }
      else st := by
  cases hb : doesLobbyExist st msg.LobbyId with
  | false => simp [postMessage, hb]
  | true =>
    rw [if_pos (by simp [hb])]
    cases hc : constructLobbyData
        { st with nextMessageId := st.nextMessageId + 1,
                  messages := st.messages ++
                    [{ msg with Id := st.nextMessageId, Timestamp := now }] }
        msg.LobbyId with
    | none => simp [postMessage, hb, hc]
    | some view => simp [postMessage, hb, hc]

/-- The state `enterLobby` leaves behind: unchanged on an unknown lobby or
when a sender for the pair already exists, otherwise the request appended
with `IsTyping` forced to false. -/
theorem enterLobby_fst (st : ServerState) (req : sender) :
    (enterLobby st req).1 =
      if doesLobbyExist st req.LobbyId then
        (if st.senders.any (senderMatches req) then st
         else { st with senders := st.senders ++ [{ req with IsTyping := false }] })
      else st := by
  cases hb : doesLobbyExist st req.LobbyId with
  | false => simp [enterLobby, hb]
  | true =>
    rw [if_pos (by simp [hb])]
    cases ha : st.senders.any (senderMatches req) with
    | true =>
      rw [if_pos (by simp [ha])]
      cases hc : constructLobbyData st req.LobbyId with
      | none => simp [enterLobby, hb, ha, hc]
      | some view => simp [enterLobby, hb, ha, hc]
    | false =>
      rw [if_neg (by simp [ha])]
      cases hc : constructLobbyData
          { st with senders := st.senders ++ [{ req with IsTyping := false }] }
          req.LobbyId with
      | none => simp [enterLobby, hb, ha, hc]
      | some view => simp [enterLobby, hb, ha, hc]

/-- A typing update that exits touches only the senders slice. -/
theorem updateTyping_some (st : ServerState) (req : sender) (fuel : Nat)
    (st1 : ServerState) (found : Bool)
    (h : updateTyping st req fuel = some (st1, found)) :
    st1.messages = st.messages ∧ st1.lobbies = st.lobbies ∧
    st1.nextMessageId = st.nextMessageId := by
  unfold updateTyping at h
  cases hscan : updateTypingScan req st.senders 0 fuel with
  | none => rw [hscan] at h; exact absurd h (by simp)
  | some p =>
    rw [hscan] at h
    obtain ⟨l1, f⟩ := p
    simp only [Option.some.injEq, Prod.mk.injEq] at h
    obtain ⟨h1, _⟩ := h
    rw [← h1]
    exact ⟨rfl, rfl, rfl⟩

/-- The ids of the store's messages, in commit (insertion) order. -/
def msgIds (st : ServerState) : List Nat := st.messages.map (fun m => m.Id)

/-- The message-id invariant: the stored ids are exactly `1, 2, …, n` in
order, and the counter sits one past the last assigned id. -/
def MsgCounterInv (st : ServerState) : Prop :=
  msgIds st = List.range' 1 st.messages.length ∧
  st.nextMessageId = st.messages.length + 1

theorem msgCounterInv_initial : MsgCounterInv initialState :=
  ⟨rfl, rfl⟩

/-- Appending a message carrying the counter's id and advancing the counter
preserves the message-id invariant. -/
theorem msgCounterInv_append (st : ServerState) (m : message)
    (hm : m.Id = st.nextMessageId) (h : MsgCounterInv st) :
    MsgCounterInv { st with nextMessageId := st.nextMessageId + 1,
                            messages := st.messages ++ [m] } := by
  obtain ⟨hids, hnext⟩ := h
  constructor
  · show (st.messages ++ [m]).map (fun x => x.Id) =
      List.range' 1 (st.messages ++ [m]).length
    rw [List.map_append, List.length_append]
    simp only [List.map_cons, List.map_nil, List.length_cons, List.length_nil,
      Nat.zero_add]
    rw [show st.messages.map (fun x => x.Id) = msgIds st from rfl, hids, hm, hnext]
    have h2 := List.range'_append_1 1 st.messages.length 1
    rw [List.range'_one] at h2
    rw [show (1 : Nat) + st.messages.length = st.messages.length + 1 from
      Nat.add_comm _ _] at h2
    exact h2
  · show st.nextMessageId + 1 = (st.messages ++ [m]).length + 1
    rw [List.length_append, hnext]
    simp

/-- Every handler call preserves the message-id invariant. -/
theorem msgCounterInv_applyOp (st : ServerState) (op : Op)
    (h : MsgCounterInv st) : MsgCounterInv (applyOp st op) := by
  cases op with
  | createLobby id =>
    show MsgCounterInv (insertLobby st id)
    unfold insertLobby
    split
    · exact h
    · exact ⟨h.1, h.2⟩
  | post msg now =>
    show MsgCounterInv (postMessage st msg now).1
    rw [postMessage_fst]
    split
    · exact msgCounterInv_append st _ rfl h
    · exact h
  | enter req =>
    show MsgCounterInv (enterLobby st req).1
    rw [enterLobby_fst]
    split
    · split
      · exact h
      · exact ⟨h.1, h.2⟩
    · exact h
  | setTyping req fuel =>
    show MsgCounterInv (match updateTyping st req fuel with
      | some (st1, _) => st1
      | none => st)
    cases hu : updateTyping st req fuel with
    | none => exact h
    | some p =>
      obtain ⟨st1, found⟩ := p
      obtain ⟨hmsg, _, hn⟩ := updateTyping_some st req fuel st1 found hu
      constructor
      · show st1.messages.map (fun x => x.Id) = List.range' 1 st1.messages.length
        rw [hmsg]
        exact h.1
      · rw [hn, hmsg]
        exact h.2

/-- The invariant holds after any sequence of handler calls. -/
theorem msgCounterInv_runOps :
    ∀ (ops : List Op) (st : ServerState),
      MsgCounterInv st → MsgCounterInv (runOps st ops)
  | [], _, h => h
  | op :: ops, st, h =>
    msgCounterInv_runOps ops (applyOp st op) (msgCounterInv_applyOp st op h)

/-- C5: over every sequence of handler calls on a store started fresh, the
stored message ids are exactly `1, 2, …, n` in commit order
(`List.range' 1 n`): ids are unique across the whole store, strictly
increasing in commit order, consecutive with no gaps even across lobbies,
and never reused; each successful post takes the counter's current value and
failed calls change nothing. -/
theorem postMessage_ids_consecutive (ops : List Op) :
    msgIds (runOps initialState ops) =
      List.range' 1 (runOps initialState ops).messages.length :=
  (msgCounterInv_runOps ops initialState msgCounterInv_initial).1

/-- The full outcome of `postMessage` on an existing lobby: counter id
assigned, message appended, counter advanced, and the fresh view (built
after the append) returned. -/
theorem postMessage_success (st : ServerState) (msg : message) (now : Int)
    (hl : doesLobbyExist st msg.LobbyId = true) :
    postMessage st msg now =
      ({ st with nextMessageId := st.nextMessageId + 1,
                 messages := st.messages ++
                   [{ msg with Id := st.nextMessageId, Timestamp := now }] },
       postResult.created
         { Messages := (st.messages ++
             [{ msg with Id := st.nextMessageId, Timestamp := now }]).filter
               (fun m => m.LobbyId == msg.LobbyId),
           Senders := st.senders.filter (fun s => s.LobbyId == msg.LobbyId),
           Id := msg.LobbyId }) := by
  have hl2 : st.lobbies.contains msg.LobbyId = true := hl
  have hl3 : msg.LobbyId ∈ st.lobbies := by simpa using hl2
  simp [postMessage, constructLobbyData, doesLobbyExist, hl3]

/-- C7: a successful `postMessage` returns a view containing the just-posted
message: the request's message, carrying the assigned id (the counter's
value at the call), the server-assigned timestamp, and the given sender name
and body, is among the returned view's messages. -/
theorem postMessage_read_your_writes (st : ServerState) (msg : message)
    (now : Int) (st1 : ServerState) (view : lobbyData)
    (h : postMessage st msg now = (st1, postResult.created view)) :
    { msg with Id := st.nextMessageId, Timestamp := now } ∈ view.Messages := by
  cases hl : doesLobbyExist st msg.LobbyId with
  | false =>
    unfold postMessage at h
    rw [if_pos (by simp [hl])] at h
    exact absurd (congrArg Prod.snd h) (by simp)
  | true =>
    rw [postMessage_success st msg now hl] at h
    have hsnd := congrArg Prod.snd h
    simp only [postResult.created.injEq] at hsnd
    rw [← hsnd]
    simp [List.mem_filter]

/-- The view carried by a `created` outcome (used to state witnesses). -/
def postResult.viewOf : postResult → lobbyData
  | .created v => v
  | _ => { Messages := [], Senders := [], Id := "" }

/-- A post request from bob to lobby "abcxyz" with body "hi". -/
def msgHi : message :=
  { Id := 0, LobbyId := "abcxyz", SenderName := "bob",
    MessageString := "hi", Timestamp := 0 }

/-- C7 witness: posting "hi" to the lobby of `stBob` returns a view holding
the posted message with id 1 and timestamp 5. -/
theorem postMessage_read_your_writes_witness :
    { msgHi with Id := stBob.nextMessageId, Timestamp := (5 : Int) } ∈
      (postResult.viewOf (postMessage stBob msgHi 5).2).Messages :=
  postMessage_read_your_writes stBob msgHi 5 (postMessage stBob msgHi 5).1
    (postResult.viewOf (postMessage stBob msgHi 5).2) (by decide)

/-- One `enterLobby` call on an existing lobby leaves exactly one sender
record for the requested pair when at most one existed before, and does not
touch the lobbies. -/
theorem enterLobby_once_count (st : ServerState) (req : sender)
    (hlobby : doesLobbyExist st req.LobbyId = true)
    (huniq : (st.senders.filter (senderMatches req)).length ≤ 1) :
    ((enterLobby st req).1.senders.filter (senderMatches req)).length = 1 ∧
    (enterLobby st req).1.lobbies = st.lobbies := by
  rw [enterLobby_fst, if_pos hlobby]
  cases ha : st.senders.any (senderMatches req) with
  | true =>
    rw [if_pos (rfl : (true : Bool) = true)]
    refine ⟨?_, rfl⟩
    obtain ⟨x, hx, hpx⟩ := List.any_eq_true.mp ha
    have hmem : x ∈ st.senders.filter (senderMatches req) :=
      List.mem_filter.mpr ⟨hx, hpx⟩
    have hpos : 0 < (st.senders.filter (senderMatches req)).length :=
      List.length_pos.mpr (fun he => by rw [he] at hmem; exact absurd hmem (by simp))
    omega
  | false =>
    rw [if_neg (by simp : ¬((false : Bool) = true))]
    refine ⟨?_, rfl⟩
    show ((st.senders ++ [{ req with IsTyping := false }]).filter
      (senderMatches req)).length = 1
    rw [List.filter_append]
    have h0 : st.senders.filter (senderMatches req) = [] := by
      apply List.filter_eq_nil.mpr
      intro x hx
      have hfalse := List.any_eq_false.mp ha x hx
      simp [hfalse]
    rw [h0]
    simp [senderMatches]

/-- A scan started at the head of a nonempty slice that exits with
`found = true` matched the head and replaced exactly its `IsTyping`. -/
theorem updateTypingScan_found_head (req : sender) :
    ∀ (fuel : Nat) (a : sender) (t l1 : List sender),
      updateTypingScan req (a :: t) 0 fuel = some (l1, true) →
      (a.Username == req.Username && a.LobbyId == req.LobbyId) = true ∧
      l1 = ({ a with IsTyping := req.IsTyping }) :: t := by
  intro fuel
  induction fuel with
  | zero =>
    intro a t l1 h
    exact absurd h (by simp [updateTypingScan])
  | succ n ih =>
    intro a t l1 h
    unfold updateTypingScan at h
    rw [dif_pos (show (0 : Nat) < (a :: t).length by simp)] at h
    have h2 : (if (a.Username == req.Username && a.LobbyId == req.LobbyId) = true then
        some ((({ a with IsTyping := req.IsTyping }) : sender) :: t, true)
      else updateTypingScan req (a :: t) 0 n) = some (l1, true) := h
    by_cases hmatch : (a.Username == req.Username && a.LobbyId == req.LobbyId) = true
    · rw [if_pos hmatch] at h2
      simp only [Option.some.injEq, Prod.mk.injEq] at h2
      exact ⟨hmatch, h2.1.symm⟩
    · rw [if_neg hmatch] at h2
      exact ih a t l1 h2

/-- A typing update that answers `found = true` matched the head of the
senders slice and set exactly its `IsTyping`. -/
theorem updateTyping_found (st : ServerState) (req : sender) (fuel : Nat)
    (st1 : ServerState) (h : updateTyping st req fuel = some (st1, true)) :
    ∃ s0 t, st.senders = s0 :: t ∧
      (s0.Username == req.Username && s0.LobbyId == req.LobbyId) = true ∧
      st1 = { st with senders := ({ s0 with IsTyping := req.IsTyping }) :: t } := by
  unfold updateTyping at h
  cases hscan : updateTypingScan req st.senders 0 fuel with
  | none => rw [hscan] at h; exact absurd h (by simp)
  | some p =>
    rw [hscan] at h
    obtain ⟨l1, f⟩ := p
    simp only [Option.some.injEq, Prod.mk.injEq] at h
    obtain ⟨h1, h2⟩ := h
    subst h2
    cases hl : st.senders with
    | nil =>
      rw [hl] at hscan
      cases fuel with
      | zero => exact absurd hscan (by simp [updateTypingScan])
      | succ n =>
        rw [show updateTypingScan req [] 0 (n + 1) = some ([], false) from by
          unfold updateTypingScan; rw [dif_neg (by simp)]] at hscan
        simp at hscan
    | cons a t =>
      rw [hl] at hscan
      obtain ⟨hm, hl1⟩ := updateTypingScan_found_head req fuel a t l1 hscan
      refine ⟨a, t, rfl, hm, ?_⟩
      rw [← h1, hl1]

/-- C6: on a store where the lobby exists and at most one sender record
matches the pair (the store's uniqueness invariant), entering the lobby
twice under the same name leaves exactly one sender record for the pair;
and when a successful typing update sets the pair's flag to true between
the two calls, the second call leaves the senders slice — and hence the
true flag — untouched. -/
theorem enterLobby_idempotent (st : ServerState) (req : sender) (fuel : Nat)
    (hlobby : doesLobbyExist st req.LobbyId = true)
    (huniq : (st.senders.filter (senderMatches req)).length ≤ 1) :
    (((enterLobby (enterLobby st req).1 req).1.senders.filter
        (senderMatches req)).length = 1) ∧
    (∀ st2, updateTyping (enterLobby st req).1 { req with IsTyping := true } fuel =
        some (st2, true) →
      (enterLobby st2 req).1.senders = st2.senders ∧
      ∃ s, s ∈ st2.senders ∧ senderMatches req s = true ∧ s.IsTyping = true) := by
  obtain ⟨hcount1, hlob1⟩ := enterLobby_once_count st req hlobby huniq
  have hlobby1 : doesLobbyExist (enterLobby st req).1 req.LobbyId = true := by
    unfold doesLobbyExist
    rw [hlob1]
    exact hlobby
  constructor
  · exact (enterLobby_once_count (enterLobby st req).1 req hlobby1 (by omega)).1
  · intro st2 hup
    obtain ⟨s0, t, hcons, hm, hst2⟩ := updateTyping_found _ _ _ _ hup
    have hmatch : senderMatches req s0 = true := by
      obtain ⟨hu, hlb⟩ := Bool.and_eq_true_iff.mp hm
      unfold senderMatches
      rw [Bool.and_eq_true]
      exact ⟨hlb, hu⟩
    have hsenders2 : st2.senders = ({ s0 with IsTyping := true }) :: t := by
      rw [hst2]
    have hmatch2 : senderMatches req ({ s0 with IsTyping := true }) = true := hmatch
    have hlobbies2 : st2.lobbies = st.lobbies := by
      rw [hst2]
      exact hlob1
    have hlobby2 : doesLobbyExist st2 req.LobbyId = true := by
      unfold doesLobbyExist
      rw [hlobbies2]
      exact hlobby
    have hany2 : st2.senders.any (senderMatches req) = true := by
      rw [hsenders2]
      simp [hmatch2]
    constructor
    · rw [enterLobby_fst, if_pos hlobby2, if_pos hany2]
    · exact ⟨({ s0 with IsTyping := true }),
        by rw [hsenders2]; exact List.mem_cons_self _ _, hmatch2, rfl⟩

/-- C6 witness: on the store holding only lobby "abcxyz", entering twice as
bob leaves one record, and a typing update between the calls survives the
second call. -/
theorem enterLobby_idempotent_witness :
    (((enterLobby (enterLobby stLobbyOnly bob).1 bob).1.senders.filter
        (senderMatches bob)).length = 1) ∧
    (∀ st2, updateTyping (enterLobby stLobbyOnly bob).1
        { bob with IsTyping := true } 3 = some (st2, true) →
      (enterLobby st2 bob).1.senders = st2.senders ∧
      ∃ s, s ∈ st2.senders ∧ senderMatches bob s = true ∧ s.IsTyping = true) :=
  enterLobby_idempotent stLobbyOnly bob 3 (by decide) (by decide)

end ChatApp
